import Mathlib

/-!
Verification of the cycle-time-recorder core against its source.

Python strings are modelled as `List Char` where string surgery matters
(hashes, passwords) and as `String` at the codec boundary.  Python floats
are modelled as rationals (`ℚ`); all numbers appearing in the verified
claims are exactly representable, so no binary-float rounding is involved
in any statement below.  `hashlib.sha256(...).hexdigest()` is modelled as
an abstract digest function `H : List Char → List Char`; the theorems that
need facts about it (hex output, absence of a collision at the relevant
inputs) take them as hypotheses.
-/

/-! ## Character and digit-string helpers (model of the `re`/`str` operations) -/

/-- Model of the regex class `\d` restricted to ASCII, as used by
`CycleTime.parse`'s pattern. -/
def isDigitChar (c : Char) : Bool := decide ('0' ≤ c) && decide (c ≤ '9')

/-- Model of the regex class `\s` (ASCII whitespace). -/
def isPySpace (c : Char) : Bool :=
  decide (c = ' ') || decide (c = '\t') || decide (c = '\n') || decide (c = '\r') ||
    decide (c = '\x0b') || decide (c = '\x0c')

/-- Numeric value of a digit character. -/
def charToDigit (c : Char) : ℕ := c.toNat - 48

/-- The decimal digit character for `d < 10`. -/
def digitChar : ℕ → Char
  | 0 => '0' | 1 => '1' | 2 => '2' | 3 => '3' | 4 => '4'
  | 5 => '5' | 6 => '6' | 7 => '7' | 8 => '8' | 9 => '9'
  | _ => '*'

/-- Drop leading whitespace (the `\s*` pieces of the pattern). -/
def skipWs : List Char → List Char
  | [] => []
  | c :: cs => if isPySpace c then skipWs cs else c :: cs

/-- Take the maximal leading run of digit characters (greedy `\d+`). -/
def takeDigits : List Char → List Char × List Char
  | [] => ([], [])
  | c :: cs =>
    if isDigitChar c then
      let p := takeDigits cs
      (c :: p.1, p.2)
    else ([], c :: cs)

/-- Value of a digit string, most significant digit first. -/
def valC (l : List Char) : ℕ := l.foldl (fun a c => 10 * a + charToDigit c) 0

/-- Decimal rendering of a natural number with explicit fuel (the fuel is
always sufficient at `natRender`'s call site). -/
def renderFuel : ℕ → ℕ → List Char
  | 0, _ => []
  | f + 1, n => if n < 10 then [digitChar n] else renderFuel f (n / 10) ++ [digitChar (n % 10)]

/-- Decimal rendering of a natural number, as Python's `str`/`format` do. -/
def natRender (n : ℕ) : List Char := renderFuel (n + 1) n

/-! ## CycleTime codec — src/models/cycle_time.py -/

/-- `CycleTime` from src/models/cycle_time.py: a (pre, machine, post)
timing triple.  Components are rationals, modelling Python floats. -/
structure CycleTime where
  pre : ℚ
  machine : ℚ
  post : ℚ
deriving DecidableEq

/-- `CycleTime.total`: `pre + machine + post`. -/
def CycleTime.total (ct : CycleTime) : ℚ := ct.pre + ct.machine + ct.post

/-- One number of the pattern: `\d+(?:\.\d+)?`, converted with `float(...)`.
Returns the value and the unconsumed input. -/
def parseNum (l : List Char) : Option (ℚ × List Char) :=
  match takeDigits l with
  | ([], _) => none
  | (ds, r1) =>
    match r1 with
    | '.' :: r2 =>
      match takeDigits r2 with
      | ([], _) => none
      | (fs, r3) => some (((valC ds : ℚ) + (valC fs : ℚ) / 10 ^ fs.length, r3))
    | _ => some ((valC ds : ℚ), r1)

/-- Expect one literal character. -/
def expectChar (c : Char) : List Char → Option (List Char)
  | x :: xs => if x = c then some xs else none
  | [] => none

/-- `CycleTime.parse` from src/models/cycle_time.py: anchored match of
`\s*NUM\s*\(\s*NUM\s*\)\s*NUM\s*` after the emptiness guard `if not s`;
returns `none` on any failure. -/
def CycleTime.parse (s : String) : Option CycleTime :=
  if s.data = [] then none
  else
    match parseNum (skipWs s.data) with
    | none => none
    | some (pre, l1) =>
      match expectChar '(' (skipWs l1) with
      | none => none
      | some l2 =>
        match parseNum (skipWs l2) with
        | none => none
        | some (machine, l3) =>
          match expectChar ')' (skipWs l3) with
          | none => none
          | some l4 =>
            match parseNum (skipWs l4) with
            | none => none
            | some (post, l5) =>
              if skipWs l5 = [] then some ⟨pre, machine, post⟩ else none

/-- Round to the nearest integer, ties to even — the rounding CPython's
`format(x, '.1f')` applies to the (exactly represented) values appearing
in the claims. -/
def roundHalfEven (x : ℚ) : ℤ :=
  let f := ⌊x⌋
  let r := x - (f : ℚ)
  if r < 1 / 2 then f
  else if 1 / 2 < r then f + 1
  else if f % 2 = 0 then f else f + 1

/-- One component of `CycleTime.__str__`: `f"{q:.1f}"`. -/
def fmt1 (q : ℚ) : List Char :=
  let n : ℤ := roundHalfEven (q * 10)
  let m : ℕ := n.natAbs
  let ds : List Char := natRender (m / 10) ++ '.' :: [digitChar (m % 10)]
  if n < 0 then '-' :: ds else ds

/-- `CycleTime.__str__` from src/models/cycle_time.py:
`f"{pre:.1f}({machine:.1f}){post:.1f}"`. -/
def CycleTime.toStr (ct : CycleTime) : String :=
  ⟨fmt1 ct.pre ++ '(' :: (fmt1 ct.machine ++ ')' :: fmt1 ct.post)⟩

/-! ## Round-trip lemmas for the codec -/

/-- The input does not begin with a digit (so a greedy `\d+` stops there). -/
def headNotDigit : List Char → Prop
  | [] => True
  | c :: _ => isDigitChar c = false

theorem charToDigit_digitChar : ∀ d, d < 10 → charToDigit (digitChar d) = d := by decide

theorem isDigitChar_digitChar : ∀ d, d < 10 → isDigitChar (digitChar d) = true := by decide

theorem not_space_of_digit (c : Char) (h : isDigitChar c = true) : isPySpace c = false := by
  cases hs : isPySpace c
  · rfl
  · exfalso
    simp only [isPySpace, Bool.or_eq_true, decide_eq_true_eq] at hs
    rcases hs with ((((rfl | rfl) | rfl) | rfl) | rfl) | rfl <;> exact absurd h (by decide)

theorem skipWs_cons (c : Char) (l : List Char) (h : isPySpace c = false) :
    skipWs (c :: l) = c :: l := by
  simp [skipWs, h]

theorem renderFuel_digits :
    ∀ f n, n < f → ∀ c ∈ renderFuel f n, isDigitChar c = true := by
  intro f
  induction f with
  | zero => intro n hn; omega
  | succ f ih =>
    intro n hn c hc
    by_cases h10 : n < 10
    · simp only [renderFuel, if_pos h10, List.mem_singleton] at hc
      subst hc; exact isDigitChar_digitChar n h10
    · simp only [renderFuel, if_neg h10, List.mem_append, List.mem_singleton] at hc
      rcases hc with hc | hc
      · exact ih (n / 10) (by omega) c hc
      · subst hc; exact isDigitChar_digitChar (n % 10) (Nat.mod_lt n (by omega))

theorem renderFuel_ne_nil : ∀ f n, n < f → renderFuel f n ≠ [] := by
  intro f
  induction f with
  | zero => intro n hn; omega
  | succ f ih =>
    intro n hn
    by_cases h10 : n < 10
    · simp [renderFuel, if_pos h10]
    · simp only [renderFuel, if_neg h10]
      intro hcon
      rcases List.append_eq_nil.mp hcon with ⟨-, h2⟩
      exact List.cons_ne_nil _ _ h2

theorem renderFuel_head :
    ∀ f n, n < f → ∃ d t, renderFuel f n = d :: t ∧ isDigitChar d = true := by
  intro f
  induction f with
  | zero => intro n hn; omega
  | succ f ih =>
    intro n hn
    by_cases h10 : n < 10
    · exact ⟨digitChar n, [], by simp [renderFuel, if_pos h10], isDigitChar_digitChar n h10⟩
    · obtain ⟨d, t, hdt, hdig⟩ := ih (n / 10) (by omega)
      exact ⟨d, t ++ [digitChar (n % 10)], by simp [renderFuel, if_neg h10, hdt], hdig⟩

theorem valC_renderFuel : ∀ f n, n < f → valC (renderFuel f n) = n := by
  intro f
  induction f with
  | zero => intro n hn; omega
  | succ f ih =>
    intro n hn
    by_cases h10 : n < 10
    · simp only [renderFuel, if_pos h10, valC, List.foldl_cons, List.foldl_nil]
      rw [charToDigit_digitChar n h10]
      omega
    · simp only [renderFuel, if_neg h10, valC, List.foldl_append, List.foldl_cons,
        List.foldl_nil]
      have hv := ih (n / 10) (by omega)
      simp only [valC] at hv
      rw [hv, charToDigit_digitChar (n % 10) (Nat.mod_lt n (by omega))]
      omega

theorem natRender_digits (n : ℕ) : ∀ c ∈ natRender n, isDigitChar c = true :=
  renderFuel_digits (n + 1) n (Nat.lt_succ_self n)

theorem natRender_ne_nil (n : ℕ) : natRender n ≠ [] :=
  renderFuel_ne_nil (n + 1) n (Nat.lt_succ_self n)

theorem valC_natRender (n : ℕ) : valC (natRender n) = n :=
  valC_renderFuel (n + 1) n (Nat.lt_succ_self n)

theorem takeDigits_of_headNotDigit (rest : List Char) (h : headNotDigit rest) :
    takeDigits rest = ([], rest) := by
  cases rest with
  | nil => rfl
  | cons c cs => simp [takeDigits, headNotDigit] at h ⊢; simp [h]

theorem takeDigits_append (A rest : List Char)
    (hA : ∀ c ∈ A, isDigitChar c = true) (h : headNotDigit rest) :
    takeDigits (A ++ rest) = (A, rest) := by
  induction A with
  | nil => simpa using takeDigits_of_headNotDigit rest h
  | cons a A ih =>
    have ha : isDigitChar a = true := hA a (List.mem_cons_self a A)
    have ih' := ih (fun c hc => hA c (List.mem_cons_of_mem a hc))
    simp only [List.cons_append, takeDigits, if_pos ha, List.append_eq, ih']

theorem skipWs_natRender_append (n : ℕ) (X : List Char) :
    skipWs (natRender n ++ X) = natRender n ++ X := by
  obtain ⟨d, t, hdt, hdig⟩ := renderFuel_head (n + 1) n (Nat.lt_succ_self n)
  show skipWs (renderFuel (n + 1) n ++ X) = renderFuel (n + 1) n ++ X
  rw [hdt, List.cons_append]
  exact skipWs_cons d (t ++ X) (not_space_of_digit d hdig)

theorem parseNum_render (a : ℕ) (rest : List Char) (h : headNotDigit rest) :
    parseNum (natRender (a / 10) ++ '.' :: digitChar (a % 10) :: rest) =
      some ((a : ℚ) / 10, rest) := by
  have hmod : a % 10 < 10 := Nat.mod_lt a (by omega)
  have h1 : takeDigits (natRender (a / 10) ++ '.' :: digitChar (a % 10) :: rest) =
      (natRender (a / 10), '.' :: digitChar (a % 10) :: rest) :=
    takeDigits_append _ _ (natRender_digits (a / 10)) (by simp [headNotDigit]; decide)
  have h2 : takeDigits (digitChar (a % 10) :: rest) = ([digitChar (a % 10)], rest) := by
    have := takeDigits_append [digitChar (a % 10)] rest
      (by intro c hc; simp at hc; subst hc; exact isDigitChar_digitChar _ hmod) h
    simpa using this
  obtain ⟨d, t, hdt, -⟩ := renderFuel_head (a / 10 + 1) (a / 10) (Nat.lt_succ_self _)
  have hne : natRender (a / 10) = d :: t := hdt
  rw [show parseNum (natRender (a / 10) ++ '.' :: digitChar (a % 10) :: rest) =
      parseNum ((d :: t) ++ '.' :: digitChar (a % 10) :: rest) by rw [hne]]
  have h1' : takeDigits ((d :: t) ++ '.' :: digitChar (a % 10) :: rest) =
      (d :: t, '.' :: digitChar (a % 10) :: rest) := by rw [← hne]; exact h1
  simp only [parseNum, h1', h2]
  have hv : valC (d :: t) = a / 10 := by rw [← hne]; exact valC_natRender (a / 10)
  have hf : valC [digitChar (a % 10)] = a % 10 := by
    simp [valC, charToDigit_digitChar (a % 10) hmod]
  rw [hv, hf]
  have keyNat : a / 10 * 10 + a % 10 = a := by omega
  have key : ((a / 10 : ℕ) : ℚ) * 10 + ((a % 10 : ℕ) : ℚ) = (a : ℚ) := by
    exact_mod_cast keyNat
  have hval : ((a / 10 : ℕ) : ℚ) + ((a % 10 : ℕ) : ℚ) / 10 ^ (1 : ℕ) = (a : ℚ) / 10 := by
    rw [pow_one, eq_div_iff (by norm_num : (10 : ℚ) ≠ 0)]
    ring_nf
    linarith [key]
  simp only [List.length_singleton, hval]

theorem roundHalfEven_natCast (k : ℕ) : roundHalfEven ((k : ℕ) : ℚ) = (k : ℤ) := by
  simp only [roundHalfEven, Int.floor_natCast]
  norm_num

theorem fmt1_tenths (k : ℕ) :
    fmt1 ((k : ℚ) / 10) = natRender (k / 10) ++ '.' :: [digitChar (k % 10)] := by
  have hq : ((k : ℚ) / 10) * 10 = (k : ℚ) := div_mul_cancel₀ _ (by norm_num)
  simp only [fmt1, hq, roundHalfEven_natCast]
  have hneg : ¬ ((k : ℤ) < 0) := by exact_mod_cast Int.natCast_nonneg k |>.not_lt
  simp [if_neg hneg, Int.natAbs_ofNat]

/-- Helper: the `__str__`/`parse` round trip for values that are exact
multiples of 0.1 in every component. -/
theorem parse_toStr_tenths (a b c : ℕ) :
    CycleTime.parse (CycleTime.toStr ⟨(a : ℚ) / 10, (b : ℚ) / 10, (c : ℚ) / 10⟩) =
      some ⟨(a : ℚ) / 10, (b : ℚ) / 10, (c : ℚ) / 10⟩ := by
  have hdata : (CycleTime.toStr ⟨(a : ℚ) / 10, (b : ℚ) / 10, (c : ℚ) / 10⟩).data =
      natRender (a / 10) ++ '.' :: digitChar (a % 10) :: '(' ::
        (natRender (b / 10) ++ '.' :: digitChar (b % 10) :: ')' ::
          (natRender (c / 10) ++ '.' :: digitChar (c % 10) :: [])) := by
    show fmt1 ((a : ℚ) / 10) ++ '(' :: (fmt1 ((b : ℚ) / 10) ++ ')' :: fmt1 ((c : ℚ) / 10)) = _
    rw [fmt1_tenths a, fmt1_tenths b, fmt1_tenths c]
    simp [List.append_assoc]
  have hp1 : parseNum (natRender (a / 10) ++ '.' :: digitChar (a % 10) :: '(' ::
      (natRender (b / 10) ++ '.' :: digitChar (b % 10) :: ')' ::
        (natRender (c / 10) ++ '.' :: digitChar (c % 10) :: []))) =
      some ((a : ℚ) / 10, '(' ::
        (natRender (b / 10) ++ '.' :: digitChar (b % 10) :: ')' ::
          (natRender (c / 10) ++ '.' :: digitChar (c % 10) :: []))) :=
    parseNum_render a _ rfl
  have hp2 : parseNum (natRender (b / 10) ++ '.' :: digitChar (b % 10) :: ')' ::
      (natRender (c / 10) ++ '.' :: digitChar (c % 10) :: [])) =
      some ((b : ℚ) / 10, ')' ::
        (natRender (c / 10) ++ '.' :: digitChar (c % 10) :: [])) :=
    parseNum_render b _ rfl
  have hp3 : parseNum (natRender (c / 10) ++ '.' :: digitChar (c % 10) :: []) =
      some ((c : ℚ) / 10, ([] : List Char)) :=
    parseNum_render c _ trivial
  have hs1 : ∀ X : List Char, skipWs ('(' :: X) = '(' :: X :=
    fun X => skipWs_cons '(' X rfl
  have hs2 : ∀ X : List Char, skipWs (')' :: X) = ')' :: X :=
    fun X => skipWs_cons ')' X rfl
  have hs3 : skipWs ([] : List Char) = [] := rfl
  simp only [CycleTime.parse, hdata, skipWs_natRender_append, hp1, hp2, hp3, hs1, hs2, hs3,
    expectChar, List.append_eq_nil, if_true, if_false, List.cons_ne_nil, and_false,
    false_and, reduceIte]

/-- Helper: rendering 1/4 with one decimal digit rounds it to 0.2, so the
text of `CycleTime(0.25, 0.25, 0.25)` coincides with that of the tenths
value 0.2. -/
theorem toStr_quarter_eq_toStr_fifth :
    CycleTime.toStr ⟨(1 / 4 : ℚ), 1 / 4, 1 / 4⟩ =
      CycleTime.toStr ⟨((2 : ℕ) : ℚ) / 10, ((2 : ℕ) : ℚ) / 10, ((2 : ℕ) : ℚ) / 10⟩ := by
  have hA : roundHalfEven ((1 / 4 : ℚ) * 10) = 2 := by
    have h52 : (1 / 4 : ℚ) * 10 = 5 / 2 := by norm_num
    have hfl : ⌊(5 / 2 : ℚ)⌋ = 2 := by
      rw [Int.floor_eq_iff]
      norm_num
    rw [h52]
    simp only [roundHalfEven, hfl]
    norm_num
  have hB : roundHalfEven (((2 : ℕ) : ℚ) / 10 * 10) = 2 := by
    have h2 : ((2 : ℕ) : ℚ) / 10 * 10 = ((2 : ℕ) : ℚ) := div_mul_cancel₀ _ (by norm_num)
    rw [h2, roundHalfEven_natCast]
    norm_num
  have h14 : fmt1 (1 / 4 : ℚ) = fmt1 (((2 : ℕ) : ℚ) / 10) := by
    simp only [fmt1, hA, hB]
  simp only [CycleTime.toStr, h14]

/-- Claim C1 (amended theorem): for every cycle time whose components are
non-negative exact multiples of 0.1 (one decimal place, the precision the
canonical text carries), `parse (format ct) = ct`. -/
theorem cycleTime_roundtrip_tenths (a b c : ℕ) :
    CycleTime.parse (CycleTime.toStr ⟨(a : ℚ) / 10, (b : ℚ) / 10, (c : ℚ) / 10⟩) =
      some ⟨(a : ℚ) / 10, (b : ℚ) / 10, (c : ℚ) / 10⟩ :=
  parse_toStr_tenths a b c

/-- Claim C1 (counterexample): the all-components-non-negative cycle time
(0.25, 0.25, 0.25) formats to "0.2(0.2)0.2", which parses to
(0.2, 0.2, 0.2) — so `parse (format ct) = ct` fails as universally stated. -/
theorem cycleTime_roundtrip_counterexample :
    (0 : ℚ) ≤ 1 / 4 ∧
      CycleTime.parse (CycleTime.toStr ⟨(1 / 4 : ℚ), 1 / 4, 1 / 4⟩) ≠
        some ⟨(1 / 4 : ℚ), 1 / 4, 1 / 4⟩ := by
  refine ⟨by norm_num, ?_⟩
  rw [toStr_quarter_eq_toStr_fifth, parse_toStr_tenths 2 2 2]
  intro hcon
  simp only [Option.some.injEq, CycleTime.mk.injEq] at hcon
  have h1 := hcon.1
  norm_num at h1

/-! ## Audit log — src/auth/authentication.py and src/utils/file_manager.py -/

/-- One audit entry, as written by `log_audit_event` / `add_audit_log`
(timestamp, event type, acting username, free-text description).  The
username is optional because `logout` reads it from session state where it
can be `None`. -/
structure AuditEvent where
  timestamp : ℚ
  event_type : String
  username : Option String
  description : String
deriving DecidableEq

namespace Auth

/-- `log_audit_event` from src/auth/authentication.py: append the event,
then keep only the last 1000 entries when the log exceeds 1000
(`audit_logs = audit_logs[-1000:]`). -/
def log_audit_event (logs : List AuditEvent) (e : AuditEvent) : List AuditEvent :=
  let logs2 := logs ++ [e]
  if 1000 < logs2.length then logs2.drop (logs2.length - 1000) else logs2

end Auth

namespace FileManager

/-- `add_audit_log` from src/utils/file_manager.py: append the event and
write the log back, with no truncation step. -/
def add_audit_log (logs : List AuditEvent) (e : AuditEvent) : List AuditEvent :=
  logs ++ [e]

end FileManager

/-! ## Password hashing — src/auth/authentication.py and src/utils/security.py -/

/-- Hexadecimal character (`secrets.token_hex` salts and sha256 hexdigests
consist of these). -/
def isHexChar (c : Char) : Bool :=
  (decide ('0' ≤ c) && decide (c ≤ '9')) || (decide ('a' ≤ c) && decide (c ≤ 'f'))

/-- All characters hexadecimal. -/
def isHex (l : List Char) : Bool := l.all isHexChar

/-- Python `sep in s`. -/
def hasC (c : Char) : List Char → Bool
  | [] => false
  | x :: xs => decide (x = c) || hasC c xs

/-- Python `s.count(sep)`. -/
def countC (c : Char) : List Char → ℕ
  | [] => 0
  | x :: xs => (if x = c then 1 else 0) + countC c xs

/-- Python `s.split(sep, 1)` when `sep` occurs in `s`: the part before the
first occurrence and the part after it. -/
def pySplit1 (sep : Char) : List Char → List Char × List Char
  | [] => ([], [])
  | x :: xs =>
    if x = sep then ([], xs)
    else
      let p := pySplit1 sep xs
      (x :: p.1, p.2)

namespace Auth

/-- `hash_password` from src/auth/authentication.py with the fresh salt
made explicit: `f"{salt}${sha256(password + salt)}"`. -/
def hash_password (H : List Char → List Char) (salt password : List Char) : List Char :=
  salt ++ '$' :: H (password ++ salt)

/-- `verify_password` from src/auth/authentication.py: `salt$digest` is
tried first, then `salt:digest`, then a bare unsalted digest; string
operations cannot raise here, and the `except` clause maps any error to
`False`, so the function is total. -/
def verify_password (H : List Char → List Char) (password password_hash : List Char) : Bool :=
  if hasC '$' password_hash then
    let p := pySplit1 '$' password_hash
    decide (H (password ++ p.1) = p.2)
  else if hasC ':' password_hash then
    let p := pySplit1 ':' password_hash
    decide (H (password ++ p.1) = p.2)
  else
    decide (H password = password_hash)

/-- `validate_password_strength` from src/auth/authentication.py. -/
def validate_password_strength (password : List Char) : Bool × String :=
  if password.length < 6 then (false, "Password must be at least 6 characters long")
  else if 128 < password.length then (false, "Password must be less than 128 characters")
  else if password.any Char.isAlpha then (true, "Password is valid")
  else (false, "Password must contain at least one letter")

end Auth

namespace Security

/-- `hash_password` from src/utils/security.py with the fresh salt made
explicit: `f"{salt}:{sha256(password + salt)}"`. -/
def hash_password (H : List Char → List Char) (salt password : List Char) : List Char :=
  salt ++ ':' :: H (password ++ salt)

/-- `verify_password` from src/utils/security.py:
`salt, original_hash = hashed_password.split(':')` raises `ValueError`
(caught, returning `False`) unless the separator occurs exactly once. -/
def verify_password (H : List Char → List Char) (password hashed_password : List Char) : Bool :=
  if countC ':' hashed_password = 1 then
    let p := pySplit1 ':' hashed_password
    decide (H (password ++ p.1) = p.2)
  else false

end Security

/-! ## Credential store — src/auth/authentication.py -/

/-- One value of the users mapping.  The fields are the dictionary keys
the modelled operations read or write (`password_hash`, legacy
`password`, `role`, `full_name`, `created_at`, `password_changed_at`);
both password fields are optional since the code defends against either
being missing. -/
structure UserRec where
  password_hash : Option (List Char)
  password : Option (List Char)
  role : String
  full_name : Option String
  created_at : Option ℚ
  password_changed_at : Option ℚ
deriving DecidableEq

/-- The users document: a JSON object, modelled as an association list
keyed by username. -/
def UsersMap := List (String × UserRec)

instance : DecidableEq UsersMap := by
  unfold UsersMap
  infer_instance

/-- Dictionary lookup `users[username]` / `username in users`. -/
def lookupKey (k : String) : UsersMap → Option UserRec
  | [] => none
  | (k2, v) :: rest => if k2 = k then some v else lookupKey k rest

/-- Dictionary update `users[username] = rec`. -/
def setKey (k : String) (v : UserRec) : UsersMap → UsersMap
  | [] => [(k, v)]
  | (k2, v2) :: rest => if k2 = k then (k, v) :: rest else (k2, v2) :: setKey k v rest

/-- Dictionary deletion `del users[username]`. -/
def eraseKey (k : String) : UsersMap → UsersMap
  | [] => []
  | (k2, v2) :: rest => if k2 = k then eraseKey k rest else (k2, v2) :: eraseKey k rest

/-- Number of entries whose `role` is the exact string "Admin" (the
comparison src/config and the views use). -/
def countAdmins (users : UsersMap) : ℕ :=
  (List.filter (fun p : String × UserRec => p.2.role = "Admin") users).length

/-- Python `a or b` over the two optional password fields: an absent or
empty first field falls through to the second. -/
def pyOr (a b : Option (List Char)) : Option (List Char) :=
  match a with
  | some s => if s = [] then b else some s
  | none => b

/-- The possible states of the backing users file as `load_users` sees
them: absent, present but not valid JSON, valid JSON whose top level is
not a dict, or a dict of user records. -/
inductive UsersFile where
  | missing : UsersFile
  | badJson : UsersFile
  | jsonNonDict : UsersFile
  | dict : UsersMap → UsersFile
deriving DecidableEq

/-- The default seeded account: `{"admin": {"password_hash": ...,
"role": "Admin", "created_at": ...}}`. -/
def defaultUsers (adminHash : List Char) (now : ℚ) : UsersMap :=
  [("admin", ⟨some adminHash, none, "Admin", none, some now, none⟩)]

namespace Auth

/-- `load_users` from src/auth/authentication.py, as a function of the
users-file state; returns the loaded map and the file state afterwards.
A missing file is seeded with the default admin and persisted; invalid
JSON makes `load_json` return the `{}` default, which passes the
`isinstance(users, dict)` check and is returned with the file untouched;
valid JSON that is not a dict raises `ValueError`, caught by the outer
handler, which seeds the default admin and persists it. -/
def load_users (adminHash : List Char) (now : ℚ) : UsersFile → UsersMap × UsersFile
  | .missing => (defaultUsers adminHash now, .dict (defaultUsers adminHash now))
  | .badJson => ([], .badJson)
  | .jsonNonDict => (defaultUsers adminHash now, .dict (defaultUsers adminHash now))
  | .dict us => (us, .dict us)

/-- `delete_user` from src/auth/authentication.py: the only guards are
the literal username "admin" and existence; returns the success flag, the
message, the resulting users map, and the audit log. -/
def delete_user (now : ℚ) (users : UsersMap) (logs : List AuditEvent)
    (username deleted_by : String) : Bool × String × UsersMap × List AuditEvent :=
  if username = "admin" then (false, "Cannot delete admin user", users, logs)
  else
    match lookupKey username users with
    | none => (false, "User not found", users, logs)
    | some _ =>
      (true, "User deleted successfully", eraseKey username users,
        log_audit_event logs
          ⟨now, "user_deleted", some deleted_by, "Deleted user: " ++ username⟩)

/-- `verify_password` applied to the password field a record actually
carries; a `None` field makes the Python call raise `TypeError`, which
`verify_password` catches and turns into `False`. -/
def verify_password_opt (H : List Char → List Char) (password : List Char) :
    Option (List Char) → Bool
  | none => false
  | some h => verify_password H password h

/-- `change_password` from src/auth/authentication.py, with the fresh
salt and the clock made explicit: looks the user up, verifies the old
password against `password_hash or password`, and on success stores the
new hash and timestamp and logs the event.  There is no strength check
on the new password. -/
def change_password (H : List Char → List Char) (salt : List Char) (now : ℚ)
    (users : UsersMap) (logs : List AuditEvent) (username : String)
    (old_password new_password : List Char) : Bool × String × UsersMap × List AuditEvent :=
  match lookupKey username users with
  | none => (false, "User not found", users, logs)
  | some u =>
    if verify_password_opt H old_password (pyOr u.password_hash u.password) then
      (true, "Password changed successfully",
        setKey username
          { u with password_hash := some (hash_password H salt new_password),
                   password_changed_at := some now } users,
        log_audit_event logs
          ⟨now, "password_change", some username, "Password changed successfully"⟩)
    else (false, "Incorrect current password", users, logs)

end Auth

/-! ## Session manager — src/auth/authentication.py -/

/-- The streamlit session-state fields the authentication module owns. -/
structure SessionState where
  logged_in : Bool
  username : Option String
  role : Option String
  full_name : Option String
  last_activity : Option ℚ
  login_time : Option ℚ
deriving DecidableEq

/-- The anonymous session: `logged_in = False` and every field `None`,
exactly what `init_session_state` and `logout` produce. -/
def anonSession : SessionState := ⟨false, none, none, none, none, none⟩

/-- `SESSION_TIMEOUT_MINUTES = 30`. -/
def SESSION_TIMEOUT_MINUTES : ℚ := 30

namespace Auth

/-- `logout` from src/auth/authentication.py: when logged in, append a
"logout" audit event for the current username; then clear every session
field. -/
def logout (now : ℚ) : SessionState × List AuditEvent → SessionState × List AuditEvent :=
  fun sl =>
    let logs2 :=
      if sl.1.logged_in then
        log_audit_event sl.2 ⟨now, "logout", sl.1.username, "User logged out"⟩
      else sl.2
    (anonSession, logs2)

/-- `check_session_timeout` from src/auth/authentication.py: when logged
in with a recorded `last_activity` strictly more than 30 minutes before
`now`, log out and report `True`; otherwise report `False` and change
nothing.  Timestamps are rationals counted in minutes. -/
def check_session_timeout (now : ℚ) (sl : SessionState × List AuditEvent) :
    Bool × SessionState × List AuditEvent :=
  match sl.1.logged_in, sl.1.last_activity with
  | true, some t =>
    if SESSION_TIMEOUT_MINUTES < now - t then
      let r := logout now sl
      (true, r.1, r.2)
    else (false, sl.1, sl.2)
  | _, _ => (false, sl.1, sl.2)

/-- `update_activity` from src/auth/authentication.py. -/
def update_activity (now : ℚ) (s : SessionState) : SessionState :=
  if s.logged_in then { s with last_activity := some now } else s

/-- The wrapper produced by `require_auth(role_required)` from
src/auth/authentication.py, up to the call of the wrapped page: returns
whether the page is allowed to run, plus the session state and audit log
afterwards.  The role comparison is case-insensitive via `.lower()`. -/
def require_auth (role_required : Option String) (now : ℚ)
    (sl : SessionState × List AuditEvent) : Bool × SessionState × List AuditEvent :=
  let r := check_session_timeout now sl
  if r.1 then (false, r.2)
  else if r.2.1.logged_in = false then (false, r.2)
  else
    let s2 := update_activity now r.2.1
    match role_required with
    | none => (true, s2, r.2.2)
    | some rr =>
      if (s2.role.getD "").toLower = rr.toLower then (true, s2, r.2.2)
      else (false, s2, r.2.2)

end Auth

/-! ## Metrics — src/views/analytics.py -/

namespace Analytics

/-- The UPH lambda from src/views/analytics.py:
`3600.0 / total_seconds * output if total_seconds > 0 else 0`, where
`total_seconds` is `pre + machine + post` of the averaged cycle time. -/
def uph (ct : CycleTime) (output : ℚ) : ℚ :=
  if 0 < ct.total then 3600 / ct.total * output else 0

end Analytics

/-! ## Hashing lemmas -/

theorem hasC_append (c : Char) (A B : List Char) :
    hasC c (A ++ B) = (hasC c A || hasC c B) := by
  induction A with
  | nil => simp [hasC]
  | cons a A ih => simp [hasC, ih, Bool.or_assoc]

theorem countC_append (c : Char) (A B : List Char) :
    countC c (A ++ B) = countC c A + countC c B := by
  induction A with
  | nil => simp [countC]
  | cons a A ih => simp [countC, ih]; omega

theorem hasC_eq_false_of_isHex (l : List Char) (h : isHex l = true) (sep : Char)
    (hsep : isHexChar sep = false) : hasC sep l = false := by
  induction l with
  | nil => rfl
  | cons x xs ih =>
    simp only [isHex, List.all_cons, Bool.and_eq_true] at h
    simp only [hasC, Bool.or_eq_false_iff, decide_eq_false_iff_not]
    refine ⟨fun hx => ?_, ?_⟩
    · rw [hx] at h; rw [h.1] at hsep; cases hsep
    · exact ih h.2

theorem countC_eq_zero_of_isHex (l : List Char) (h : isHex l = true) (sep : Char)
    (hsep : isHexChar sep = false) : countC sep l = 0 := by
  induction l with
  | nil => rfl
  | cons x xs ih =>
    simp only [isHex, List.all_cons, Bool.and_eq_true] at h
    simp only [countC]
    have hx : ¬ (x = sep) := fun hx => by rw [hx] at h; rw [h.1] at hsep; cases hsep
    rw [if_neg hx, ih h.2]

theorem pySplit1_append (sep : Char) (A B : List Char) (h : hasC sep A = false) :
    pySplit1 sep (A ++ sep :: B) = (A, B) := by
  induction A with
  | nil => simp [pySplit1]
  | cons a A ih =>
    simp only [hasC, Bool.or_eq_false_iff, decide_eq_false_iff_not] at h
    simp only [List.cons_append, pySplit1, if_neg h.1, List.append_eq, ih h.2]

theorem ne_of_isHex_of_not_isHex (a b : List Char) (ha : isHex a = true)
    (hb : isHex b = false) : a ≠ b := fun hab => by rw [hab, hb] at ha; cases ha

/-- Digest stub used to instantiate the abstract sha256 in witnesses. -/
def hashStub : List Char → List Char :=
  fun l => if l = "p1cd".data then "aa".data else "bb".data

theorem hashStub_hex : ∀ s, isHex (hashStub s) = true := by
  intro s
  unfold hashStub
  split
  · decide
  · decide

/-- Claim C3 (amended theorem): `verify_password` in
src/auth/authentication.py accepts all three legacy formats —
`salt$digest` first, then `salt:digest`, then a bare unsalted digest —
and is total (malformed input yields `false`); `verify_password` in
src/utils/security.py accepts only the `salt:digest` format and returns
`false` for the `salt$digest` and bare-digest formats. -/
theorem verify_password_formats (H : List Char → List Char) (p salt : List Char)
    (hsalt : isHex salt = true) (hH : ∀ s, isHex (H s) = true) :
    Auth.verify_password H p (salt ++ '$' :: H (p ++ salt)) = true ∧
    Auth.verify_password H p (salt ++ ':' :: H (p ++ salt)) = true ∧
    Auth.verify_password H p (H p) = true ∧
    Security.verify_password H p (salt ++ ':' :: H (p ++ salt)) = true ∧
    Security.verify_password H p (salt ++ '$' :: H (p ++ salt)) = false ∧
    Security.verify_password H p (H p) = false := by
  have hds : hasC '$' salt = false := hasC_eq_false_of_isHex salt hsalt '$' (by decide)
  have hcs : hasC ':' salt = false := hasC_eq_false_of_isHex salt hsalt ':' (by decide)
  have hdH : ∀ s, hasC '$' (H s) = false :=
    fun s => hasC_eq_false_of_isHex (H s) (hH s) '$' (by decide)
  have hcH : ∀ s, hasC ':' (H s) = false :=
    fun s => hasC_eq_false_of_isHex (H s) (hH s) ':' (by decide)
  have hccs : countC ':' salt = 0 := countC_eq_zero_of_isHex salt hsalt ':' (by decide)
  have hccH : ∀ s, countC ':' (H s) = 0 :=
    fun s => countC_eq_zero_of_isHex (H s) (hH s) ':' (by decide)
  refine ⟨?_, ?_, ?_, ?_, ?_, ?_⟩
  · have hin : hasC '$' (salt ++ '$' :: H (p ++ salt)) = true := by
      simp [hasC_append, hasC]
    simp only [Auth.verify_password, hin, if_pos, pySplit1_append '$' _ _ hds,
      decide_eq_true_eq, if_true]
  · have hno : hasC '$' (salt ++ ':' :: H (p ++ salt)) = false := by
      simp [hasC_append, hasC, hds, hdH]
    have hin : hasC ':' (salt ++ ':' :: H (p ++ salt)) = true := by
      simp [hasC_append, hasC]
    simp only [Auth.verify_password, hno, hin, if_true, if_false, Bool.false_eq_true,
      pySplit1_append ':' _ _ hcs, decide_eq_true_eq]
  · simp only [Auth.verify_password, hdH p, hcH p, Bool.false_eq_true, if_false,
      decide_eq_true_eq]
  · have hcount : countC ':' (salt ++ ':' :: H (p ++ salt)) = 1 := by
      rw [countC_append]
      simp [countC, hccs, hccH]
    simp only [Security.verify_password, hcount, if_pos, pySplit1_append ':' _ _ hcs,
      decide_eq_true_eq, if_true]
  · have hcount : countC ':' (salt ++ '$' :: H (p ++ salt)) = 0 := by
      rw [countC_append]
      simp [countC, hccs, hccH]
    simp [Security.verify_password, hcount]
  · simp [Security.verify_password, hccH p]

/-- Claim C3 (witness): the six format facts hold at the concrete digest
stub, password "p1" and salt "cd". -/
theorem verify_password_formats_witness :
    isHex "cd".data = true ∧
    Auth.verify_password hashStub "p1".data
      ("cd".data ++ '$' :: hashStub ("p1".data ++ "cd".data)) = true ∧
    Auth.verify_password hashStub "p1".data
      ("cd".data ++ ':' :: hashStub ("p1".data ++ "cd".data)) = true ∧
    Auth.verify_password hashStub "p1".data (hashStub "p1".data) = true ∧
    Security.verify_password hashStub "p1".data
      ("cd".data ++ ':' :: hashStub ("p1".data ++ "cd".data)) = true ∧
    Security.verify_password hashStub "p1".data
      ("cd".data ++ '$' :: hashStub ("p1".data ++ "cd".data)) = false ∧
    Security.verify_password hashStub "p1".data (hashStub "p1".data) = false := by
  have h := verify_password_formats hashStub "p1".data "cd".data (by decide) hashStub_hex
  exact ⟨by decide, h.1, h.2.1, h.2.2.1, h.2.2.2.1, h.2.2.2.2.1, h.2.2.2.2.2⟩

/-- Claim C3 (counterexample): it is not the case that every verify
function in the sources accepts all three legacy formats — the
src/utils/security.py implementation rejects the `salt$digest` and bare
formats even for the matching password; shown at a concrete digest
function, password and salt. -/
theorem security_verify_legacy_counterexample :
    ¬ (∀ (H : List Char → List Char) (p salt : List Char),
        isHex salt = true → (∀ s, isHex (H s) = true) →
        Security.verify_password H p (salt ++ '$' :: H (p ++ salt)) = true ∧
        Security.verify_password H p (H p) = true) := by
  intro hcl
  have h := hcl hashStub "p1".data "cd".data (by decide) hashStub_hex
  exact absurd h.1 (by decide)

/-- The spec's malformed-hash probe string. -/
def notAHash : List Char := "not-a-hash".data

/-- Second digest stub, differing on the two salted inputs used in the
hasher witness. -/
def hashStub2 : List Char → List Char :=
  fun l => if l = "p2cd".data then "bb".data else "aa".data

theorem hashStub2_hex : ∀ s, isHex (hashStub2 s) = true := by
  intro s
  unfold hashStub2
  split
  · decide
  · decide

/-- Claim C9 (theorem): with the digest modelled as an abstract function
whose outputs are hex strings and which has no collision at the two
salted inputs involved, both hasher pairs satisfy the spec laws:
`verify (p, hash p) = true`, `verify (p, hash p2) = false`, and
`verify (p, "not-a-hash") = false` without raising. -/
theorem hasher_verify_roundtrip (H : List Char → List Char) (p p2 salt : List Char)
    (hsalt : isHex salt = true) (hH : ∀ s, isHex (H s) = true)
    (hcoll : H (p ++ salt) ≠ H (p2 ++ salt)) :
    Auth.verify_password H p (Auth.hash_password H salt p) = true ∧
    Auth.verify_password H p (Auth.hash_password H salt p2) = false ∧
    Auth.verify_password H p notAHash = false ∧
    Security.verify_password H p (Security.hash_password H salt p) = true ∧
    Security.verify_password H p (Security.hash_password H salt p2) = false ∧
    Security.verify_password H p notAHash = false := by
  have hds : hasC '$' salt = false := hasC_eq_false_of_isHex salt hsalt '$' (by decide)
  have hcs : hasC ':' salt = false := hasC_eq_false_of_isHex salt hsalt ':' (by decide)
  have hccs : countC ':' salt = 0 := countC_eq_zero_of_isHex salt hsalt ':' (by decide)
  have hccH : ∀ s, countC ':' (H s) = 0 :=
    fun s => countC_eq_zero_of_isHex (H s) (hH s) ':' (by decide)
  refine ⟨?_, ?_, ?_, ?_, ?_, ?_⟩
  · have hin : hasC '$' (salt ++ '$' :: H (p ++ salt)) = true := by
      simp [hasC_append, hasC]
    simp only [Auth.hash_password, Auth.verify_password, hin, if_pos,
      pySplit1_append '$' _ _ hds, decide_eq_true_eq, if_true]
  · have hin : hasC '$' (salt ++ '$' :: H (p2 ++ salt)) = true := by
      simp [hasC_append, hasC]
    simp only [Auth.hash_password, Auth.verify_password, hin, if_true,
      pySplit1_append '$' _ _ hds]
    exact decide_eq_false hcoll
  · have h1 : hasC '$' notAHash = false := by decide
    have h2 : hasC ':' notAHash = false := by decide
    simp only [Auth.verify_password, h1, h2, Bool.false_eq_true, if_false]
    exact decide_eq_false (ne_of_isHex_of_not_isHex _ _ (hH p) (by decide))
  · have hcount : countC ':' (salt ++ ':' :: H (p ++ salt)) = 1 := by
      rw [countC_append]
      simp [countC, hccs, hccH]
    simp only [Security.hash_password, Security.verify_password, hcount, if_pos,
      pySplit1_append ':' _ _ hcs, decide_eq_true_eq, if_true]
  · have hcount : countC ':' (salt ++ ':' :: H (p2 ++ salt)) = 1 := by
      rw [countC_append]
      simp [countC, hccs, hccH]
    simp only [Security.hash_password, Security.verify_password, hcount, if_pos,
      pySplit1_append ':' _ _ hcs, if_true]
    exact decide_eq_false hcoll
  · simp only [Security.verify_password]
    rw [if_neg (by decide : ¬ countC ':' notAHash = 1)]

/-- Claim C9 (witness): the hasher laws at the concrete digest stub,
passwords "p1" and "p2" and salt "cd". -/
theorem hasher_verify_roundtrip_witness :
    isHex "cd".data = true ∧
    hashStub2 ("p1".data ++ "cd".data) ≠ hashStub2 ("p2".data ++ "cd".data) ∧
    Auth.verify_password hashStub2 "p1".data
      (Auth.hash_password hashStub2 "cd".data "p1".data) = true ∧
    Auth.verify_password hashStub2 "p1".data
      (Auth.hash_password hashStub2 "cd".data "p2".data) = false ∧
    Auth.verify_password hashStub2 "p1".data notAHash = false ∧
    Security.verify_password hashStub2 "p1".data
      (Security.hash_password hashStub2 "cd".data "p1".data) = true ∧
    Security.verify_password hashStub2 "p1".data
      (Security.hash_password hashStub2 "cd".data "p2".data) = false ∧
    Security.verify_password hashStub2 "p1".data notAHash = false := by
  have h := hasher_verify_roundtrip hashStub2 "p1".data "p2".data "cd".data
    (by decide) hashStub2_hex (by decide)
  exact ⟨by decide, by decide, h.1, h.2.1, h.2.2.1, h.2.2.2.1, h.2.2.2.2.1, h.2.2.2.2.2⟩

/-! ## Remaining claims -/

/-- Audit event used to instantiate witnesses. -/
def evStub : AuditEvent := ⟨0, "login", some "u", "ok"⟩

/-- Claim C2 (amended theorem): `log_audit_event` always leaves at most
1000 stored entries, and appending to a full 1000-entry log drops exactly
the oldest entry (FIFO). -/
theorem log_audit_event_caps_at_1000 (logs : List AuditEvent) (e : AuditEvent) :
    (Auth.log_audit_event logs e).length ≤ 1000 ∧
    (logs.length = 1000 → Auth.log_audit_event logs e = logs.tail ++ [e]) := by
  constructor
  · simp only [Auth.log_audit_event]
    by_cases h : 1000 < (logs ++ [e]).length
    · rw [if_pos h, List.length_drop]
      omega
    · rw [if_neg h]
      omega
  · intro h1000
    simp only [Auth.log_audit_event]
    have hlen : (logs ++ [e]).length = 1001 := by simp [h1000]
    rw [if_pos (by rw [hlen]; norm_num), hlen]
    norm_num
    cases logs with
    | nil => simp at h1000
    | cons a t => simp

/-- Claim C2 (witness): appending the 1001st event to a full log of 1000
copies of a concrete event keeps the length at 1000 by dropping the
oldest entry. -/
theorem log_audit_event_caps_at_1000_witness :
    (List.replicate 1000 evStub).length = 1000 ∧
    Auth.log_audit_event (List.replicate 1000 evStub) evStub =
      (List.replicate 1000 evStub).tail ++ [evStub] :=
  ⟨by rw [List.length_replicate],
    (log_audit_event_caps_at_1000 (List.replicate 1000 evStub) evStub).2
      (by rw [List.length_replicate])⟩

/-- Claim C2 (counterexample): the other append in the sources,
`add_audit_log` in src/utils/file_manager.py, does not truncate — after
appending to a 1000-entry log the stored log holds 1001 entries. -/
theorem add_audit_log_unbounded_counterexample :
    1000 < (FileManager.add_audit_log (List.replicate 1000 evStub) evStub).length := by
  simp only [FileManager.add_audit_log, List.length_append, List.length_replicate,
    List.length_singleton]
  norm_num

/-- Concrete store in which the sole Admin is not named "admin". -/
def memberRec : UserRec := ⟨some "aa".data, none, "Member", none, none, none⟩

/-- An Admin record. -/
def adminRec : UserRec := ⟨some "bb".data, none, "Admin", none, none, none⟩

/-- A users map whose only Admin is "boss"; the protected name "admin" is
present but holds a Member. -/
def usersC4 : UsersMap := [("admin", memberRec), ("boss", adminRec)]

/-- Claim C4 (amended theorem): `delete_user` always rejects the literal
username "admin" with no state change, and deletes any other existing
username unconditionally — there is no check on how many Admins remain. -/
theorem delete_user_admin_only_guard (now : ℚ) (users : UsersMap) (logs : List AuditEvent)
    (u deleted_by : String) (hu : u ≠ "admin") (hexists : (lookupKey u users).isSome = true) :
    Auth.delete_user now users logs "admin" deleted_by =
      (false, "Cannot delete admin user", users, logs) ∧
    (Auth.delete_user now users logs u deleted_by).1 = true ∧
    (Auth.delete_user now users logs u deleted_by).2.2.1 = eraseKey u users := by
  obtain ⟨r, hr⟩ := Option.isSome_iff_exists.mp hexists
  refine ⟨by simp [Auth.delete_user], ?_, ?_⟩
  · simp only [Auth.delete_user, if_neg hu, hr]
  · simp only [Auth.delete_user, if_neg hu, hr]

/-- Claim C4 (witness): on the concrete store, deleting "admin" fails and
deleting the existing user "boss" succeeds and removes it. -/
theorem delete_user_admin_only_guard_witness :
    Auth.delete_user 0 usersC4 [] "admin" "admin" =
      (false, "Cannot delete admin user", usersC4, []) ∧
    (Auth.delete_user 0 usersC4 [] "boss" "admin").1 = true ∧
    (Auth.delete_user 0 usersC4 [] "boss" "admin").2.2.1 = eraseKey "boss" usersC4 :=
  delete_user_admin_only_guard 0 usersC4 [] "boss" "admin" (by decide) (by decide)

/-- Claim C4 (counterexample): in a store whose sole Admin is "boss",
`delete_user` deletes "boss" successfully and zero Admins remain — the
"keep at least one Admin" invariant is not enforced. -/
theorem delete_sole_admin_succeeds_counterexample :
    countAdmins usersC4 = 1 ∧
    (Auth.delete_user 0 usersC4 [] "boss" "admin").1 = true ∧
    countAdmins (Auth.delete_user 0 usersC4 [] "boss" "admin").2.2.1 = 0 := by
  refine ⟨by decide, by decide, by decide⟩

/-- Claim C5 (amended theorem): `load_users` seeds and persists the
default Admin both when the users file is missing and when it holds
valid JSON that is not a dict; invalid JSON is silently replaced by an
empty user map with the file untouched; a present dict is returned
as-is.  No case reports an error to the caller. -/
theorem load_users_case_behavior (adminHash : List Char) (now : ℚ) :
    Auth.load_users adminHash now .missing =
      (defaultUsers adminHash now, .dict (defaultUsers adminHash now)) ∧
    Auth.load_users adminHash now .jsonNonDict =
      (defaultUsers adminHash now, .dict (defaultUsers adminHash now)) ∧
    Auth.load_users adminHash now .badJson = ([], .badJson) ∧
    ∀ us : UsersMap, Auth.load_users adminHash now (.dict us) = (us, .dict us) :=
  ⟨rfl, rfl, rfl, fun _ => rfl⟩

/-- Claim C5 (counterexample): on a present-but-malformed users file
(valid JSON, top level not a dict) `load_users` seeds and persists the
default Admin — seeding is not restricted to the absent-file case — and
on invalid JSON it silently returns an empty map; no error propagates in
either case. -/
theorem load_users_reseeds_counterexample :
    UsersFile.jsonNonDict ≠ UsersFile.missing ∧
    Auth.load_users "hh".data 0 .jsonNonDict =
      (defaultUsers "hh".data 0, .dict (defaultUsers "hh".data 0)) ∧
    Auth.load_users "hh".data 0 .badJson = ([], .badJson) :=
  ⟨by simp, rfl, rfl⟩

/-- Claim C6 (theorem): a logged-in session whose `last_activity` lies
strictly more than `SESSION_TIMEOUT_MINUTES` before `now` is forcibly
logged out by `check_session_timeout` — it returns `true` and clears
every session field — and any later role-gated `require_auth` call on the
resulting anonymous session is denied. -/
theorem session_timeout_forces_anonymous (s : SessionState) (logs logs2 : List AuditEvent)
    (now now2 t : ℚ) (roleReq : String)
    (h1 : s.logged_in = true) (h2 : s.last_activity = some t)
    (h3 : SESSION_TIMEOUT_MINUTES < now - t) :
    (Auth.check_session_timeout now (s, logs)).1 = true ∧
    (Auth.check_session_timeout now (s, logs)).2.1 = anonSession ∧
    (Auth.require_auth (some roleReq) now2 (anonSession, logs2)).1 = false := by
  have hcst : Auth.check_session_timeout now (s, logs) =
      (true, anonSession,
        Auth.log_audit_event logs ⟨now, "logout", s.username, "User logged out"⟩) := by
    simp only [Auth.check_session_timeout, h1, h2, if_pos h3, Auth.logout]
    simp [h1]
  refine ⟨by rw [hcst], by rw [hcst], ?_⟩
  simp [Auth.require_auth, Auth.check_session_timeout, anonSession]

/-- Session used in the timeout witness: logged in, last activity at
minute 0. -/
def sessW : SessionState := ⟨true, some "u", some "Member", some "U", some 0, some 0⟩

/-- Claim C6 (witness): at `now = 31` minutes (31 > 30 since the last
activity), the concrete session times out, is cleared, and a subsequent
Admin-gated action is denied. -/
theorem session_timeout_forces_anonymous_witness :
    (Auth.check_session_timeout 31 (sessW, [])).1 = true ∧
    (Auth.check_session_timeout 31 (sessW, [])).2.1 = anonSession ∧
    (Auth.require_auth (some "Admin") 31 (anonSession, [])).1 = false :=
  session_timeout_forces_anonymous sessW [] [] 31 31 0 "Admin" rfl rfl
    (by norm_num [SESSION_TIMEOUT_MINUTES])

/-- Claim C7 (theorem): the analytics UPH value is
`3600 / total_seconds * output` whenever the total of the average cycle
time is strictly positive, and 0 — not an error — when the total is 0. -/
theorem uph_spec (ct : CycleTime) (output : ℚ) :
    (0 < ct.total → Analytics.uph ct output = 3600 / ct.total * output) ∧
    (ct.total = 0 → Analytics.uph ct output = 0) := by
  constructor
  · intro h
    simp [Analytics.uph, if_pos h]
  · intro h
    simp [Analytics.uph, h]

/-- Claim C7 (witness): the spec's examples — `uph(CycleTime(5,12,4), 1)
= 3600/21` and `uph(CycleTime(0,0,0), 5) = 0`. -/
theorem uph_spec_witness :
    (0 : ℚ) < (CycleTime.mk 5 12 4).total ∧
    Analytics.uph ⟨5, 12, 4⟩ 1 = 3600 / (CycleTime.mk 5 12 4).total * 1 ∧
    (CycleTime.mk 0 0 0).total = 0 ∧
    Analytics.uph ⟨0, 0, 0⟩ 5 = 0 :=
  ⟨by norm_num [CycleTime.total],
    (uph_spec ⟨5, 12, 4⟩ 1).1 (by norm_num [CycleTime.total]),
    by norm_num [CycleTime.total],
    (uph_spec ⟨0, 0, 0⟩ 5).2 (by norm_num [CycleTime.total])⟩

/-- User record for the change-password instances. -/
def uRecC8 : UserRec := ⟨some "bb".data, none, "Member", none, none, none⟩

/-- Users map holding just "u". -/
def usersC8 : UsersMap := [("u", uRecC8)]

/-- Claim C8 (amended theorem): `change_password` verifies the old
password before applying the new one — on failure it reports an error
and changes neither the users map nor the audit log — and on success it
stores the hash of the new password unconditionally: `new_password` is
arbitrary, no strength validation is applied. -/
theorem change_password_behavior (H : List Char → List Char) (salt : List Char) (now : ℚ)
    (users : UsersMap) (logs : List AuditEvent) (username : String)
    (old_password new_password : List Char) (u : UserRec)
    (hu : lookupKey username users = some u) :
    (Auth.verify_password_opt H old_password (pyOr u.password_hash u.password) = false →
      Auth.change_password H salt now users logs username old_password new_password =
        (false, "Incorrect current password", users, logs)) ∧
    (Auth.verify_password_opt H old_password (pyOr u.password_hash u.password) = true →
      Auth.change_password H salt now users logs username old_password new_password =
        (true, "Password changed successfully",
          setKey username
            { u with password_hash := some (Auth.hash_password H salt new_password),
                     password_changed_at := some now } users,
          Auth.log_audit_event logs
            ⟨now, "password_change", some username, "Password changed successfully"⟩)) := by
  constructor
  · intro hv
    simp only [Auth.change_password, hu, hv, Bool.false_eq_true, if_false]
  · intro hv
    simp only [Auth.change_password, hu, hv, if_true]

/-- Claim C8 (witness): with a digest stub under which the old password
verifies, changing to the (weak) one-character password "x" succeeds and
rewrites the stored record. -/
theorem change_password_behavior_witness :
    Auth.verify_password_opt hashStub "pw".data (pyOr uRecC8.password_hash uRecC8.password)
      = true ∧
    Auth.change_password hashStub "cd".data 0 usersC8 [] "u" "pw".data "x".data =
      (true, "Password changed successfully",
        setKey "u"
          { uRecC8 with password_hash := some (Auth.hash_password hashStub "cd".data "x".data),
                        password_changed_at := some 0 } usersC8,
        Auth.log_audit_event []
          ⟨0, "password_change", some "u", "Password changed successfully"⟩) :=
  ⟨by decide,
    (change_password_behavior hashStub "cd".data 0 usersC8 [] "u" "pw".data "x".data uRecC8
      rfl).2 (by decide)⟩

/-- Claim C8 (counterexample): "x" fails the strength policy, yet
`change_password` accepts it — no strength check is performed on the new
password. -/
theorem change_password_accepts_weak_counterexample :
    (Auth.validate_password_strength "x".data).1 = false ∧
    (Auth.change_password hashStub "cd".data 0 usersC8 [] "u" "pw".data "x".data).1 = true :=
  ⟨by decide, by decide⟩

/-- Claim C10 (theorem): `logout` is idempotent — a second `logout` right
after one changes nothing — and calling `logout` on the anonymous
session leaves all fields cleared as they are and appends no audit
event. -/
theorem logout_idempotent (now now2 : ℚ) (s : SessionState) (logs : List AuditEvent) :
    Auth.logout now2 (Auth.logout now (s, logs)) = Auth.logout now (s, logs) ∧
    Auth.logout now (anonSession, logs) = (anonSession, logs) := by
  constructor
  · simp [Auth.logout, anonSession]
  · simp [Auth.logout, anonSession]
